import Mathlib

/-!
# Verification of the VRF key lifecycle CLI

Shallow embedding of `core/cmd/local_client_vrf.go`: the command-line layer
managing Verifiable Random Function secret keys (create, create-weak-testing,
import, export, delete, forget) over an external `store.VRFKeyStore`.

Modelling conventions:
* Go byte strings (`[]byte` / `string`) are the symbolic type `Bytes`: either
  raw text or the canonical serialization of an encrypted key record.  The
  specification (§6) requires records to round-trip byte-for-byte through the
  export/import serialization, so serialization is injective; we model it by
  the `Bytes.record` constructor.  An encrypted key record is symbolically
  `record publicKey encPassword weak`: a ciphertext produced under
  `encPassword` with the weak or strong KDF profile (authenticated encryption:
  decryption succeeds exactly under the encrypting password).
* The filesystem is an association list of paths to contents, plus the set of
  paths at which writes fail (modelling `ioutil.WriteFile` errors).
* `World` carries the keystore registry, the filesystem, the lines printed by
  `fmt.Print*`, the structured log of `logger.Infow`, and a ghost trace of
  observable events (keystore invocations, key generation, file writes) used
  to state ordering and frame properties.
* The keystore itself (`store.VRFKeyStore`), `vrfkey.NewPublicKeyFromHex`,
  `vrfkey` record disk writes and `passwordFromFile` are repository code not
  present under `src/`; they are modelled from the specification, each marked
  `Modelled from the spec:` in its doc comment.
-/

/-- Go byte strings, symbolically: raw text, or the canonical (injective)
serialization of an encrypted key record `{publicKey, ciphertext under
encPassword, profile flag}` (spec §3, §6). -/
inductive Bytes where
  | raw (s : String)
  | record (publicKey : String) (encPassword : Bytes) (weak : Bool)
deriving DecidableEq

/-- The public key a serialized record is keyed by, if the bytes are a record
at all (the registry is "a table of opaque encrypted records keyed by public
key", spec §1). -/
def Bytes.publicKeyOf : Bytes → Option String
  | .raw _ => none
  | .record pk _ _ => some pk

/-- Display rendering of byte strings, for `%s` interpolation into error
messages (display only, not required to be injective). -/
def Bytes.render : Bytes → String
  | .raw s => s
  | .record pk pw w =>
      "\x7b\x22PublicKey\x22:\x22" ++ pk ++ "\x22,\x22Ciphertext\x22:\x22" ++
        pw.render ++ "\x22,\x22Weak\x22:" ++ (if w then "true" else "false") ++ "\x7d"

/-- Structured errors surfaced by the keystore (`store` package error values
and the spec §7 taxonomy). -/
inductive KsError where
  | MatchingVRFKeyError
  | AttemptToDeleteNonExistentKeyFromDB
  | NoSuchKeyError
  | PersistenceError
  | MalformedRecordError
  | WrongPasswordError
  | DowngradeRefusedError
  | RecordReadError
  | EngineError
deriving DecidableEq

/-- Go `error` values as built by the CLI layer: `fmt.Errorf`, a keystore
error returned as-is, or `errors.Wrap/Wrapf`. -/
inductive GoError where
  | errorf (msg : String)
  | ksErr (e : KsError)
  | wrap (e : GoError) (msg : String)
deriving DecidableEq

/-- Ghost trace events: keystore invocations, fresh key-material generation,
and file writes. -/
inductive Event where
  | keyGenerated (publicKey : String)
  | ksCreateKeyCall (password : Bytes)
  | ksCreateWeakCall (password : Bytes)
  | ksImportCall (keyjson : Bytes) (password : Bytes)
  | ksExportCall (publicKey : String)
  | ksDeleteCall (publicKey : String)
  | fileWrite (path : String) (data : Bytes)
deriving DecidableEq

/-- The filesystem: contents per path (most recent write first), and the
paths at which writes fail. -/
structure FS where
  files : List (String × Bytes)
  writeFails : List String
deriving DecidableEq

/-- Read a file (`ioutil.ReadFile` / `os.Stat` visibility): the most recently
written content, if the path exists. -/
def FS.read (fs : FS) (path : String) : Option Bytes :=
  fs.files.lookup path

/-- Write a file (`ioutil.WriteFile`): fails on the failing paths, otherwise
records the new content. -/
def FS.write (fs : FS) (path : String) (data : Bytes) : Option FS :=
  if path ∈ fs.writeFails then none
  else some ⟨(path, data) :: fs.files, fs.writeFails⟩

/-- One `logger.Infow` entry: message, the public key and the error logged. -/
structure LogEntry where
  msg : String
  publicKey : String
  err : KsError
deriving DecidableEq

/-- The observable state threaded through a CLI invocation: the keystore
registry, the filesystem, stdout lines, the structured log, and the ghost
event trace. -/
structure World where
  registry : List Bytes
  fs : FS
  out : List String
  log : List LogEntry
  events : List Event
deriving DecidableEq

/-- The `urfave/cli` context: the three flags the VRF commands read.
`c.IsSet(name)` is `isSome`, `c.String(name)` the value. -/
structure Context where
  password : Option String
  file : Option String
  publicKey : Option String
deriving DecidableEq

/-- Modelled from the spec: `vrfkey.NewPublicKeyFromHex` is not under `src/`.
Public keys are "rendered as a fixed-width hex string" (spec §3); parsing
accepts exactly well-formed fixed-width hex and is the identity on it
(`PublicKey.String()` renders the same text back). -/
def NewPublicKeyFromHex (s : String) : Option String :=
  if s.length == 64 && s.data.all (fun c => c.isDigit || ('a' ≤ c && c ≤ 'f')) then
    some s
  else none

/-- The registry rows holding a record for `pk` (the registry is keyed by
public key and may hold several records per key, spec §3). -/
def matchingRecords (registry : List Bytes) (pk : String) : List Bytes :=
  registry.filter (fun r => r.publicKeyOf == some pk)

/-- Modelled from the spec: `store.VRFKeyStore.CreateKey` is not under `src/`.
Spec §4.2: generates a fresh key pair (the secure random source is the
`freshPk` oracle argument), encrypts it under the strong profile with the
given password, and persists the record; the `persistOk` oracle models the
storage outcome — on failure the operation fails with `PersistenceError` and
the generated key is discarded.  Returns the public key on success, along
with the events performed. -/
def ksCreateKey (registry : List Bytes) (password : Bytes) (freshPk : String)
    (persistOk : Bool) : Except KsError (String × List Bytes) × List Event :=
  if persistOk then
    (.ok (freshPk, registry ++ [Bytes.record freshPk password false]),
      [.keyGenerated freshPk])
  else
    (.error .PersistenceError, [.keyGenerated freshPk])

/-- Modelled from the spec:
`store.VRFKeyStore.CreateWeakInMemoryEncryptedKeyXXXTestingOnly` is not under
`src/`.  Spec §4.3: identical key-generation step, but encrypts under the
weak profile and does not write to the persistent registry; the record is
returned to the caller for explicit disk export.  The `genOk` oracle models
generation/engine failure. -/
def ksCreateWeak (password : Bytes) (freshPk : String) (genOk : Bool) :
    Except KsError Bytes × List Event :=
  if genOk then
    (.ok (Bytes.record freshPk password true), [.keyGenerated freshPk])
  else (.error .EngineError, [])

/-- Modelled from the spec: `store.VRFKeyStore.Import` is not under `src/`.
Spec §4.4: parses the bytes (`MalformedRecordError` on schema violations),
trial-decrypts under the password (`WrongPasswordError`), fails with the
duplicate-key error `MatchingVRFKeyError` when a record with the same public
key already exists, rejects weak-profile records (§4.3/§8,
`DowngradeRefusedError`), and otherwise persists the new record. -/
def ksImport (registry : List Bytes) (keyjson : Bytes) (password : Bytes) :
    Except KsError (List Bytes) :=
  match keyjson with
  | .raw _ => .error .MalformedRecordError
  | .record pk encPw weak =>
    if password ≠ encPw then .error .WrongPasswordError
    else if matchingRecords registry pk ≠ [] then .error .MatchingVRFKeyError
    else if weak then .error .DowngradeRefusedError
    else .ok (registry ++ [keyjson])

/-- Modelled from the spec: `store.VRFKeyStore.Export` is not under `src/`.
Spec §4.5: looks up all records matching the public key and returns every one
found; individual row reads may fail (the `unreadable` oracle), in which case
the retrievable records are still returned alongside the error report.  Fails
with `NoSuchKeyError` only when zero records are found and zero could be
attempted. -/
def ksExport (registry : List Bytes) (pk : String) (unreadable : List Bytes) :
    List Bytes × Option KsError :=
  let matching := matchingRecords registry pk
  let retrieved := matching.filter (fun r => !(unreadable.contains r))
  (retrieved,
    if matching = [] then some .NoSuchKeyError
    else if retrieved.length < matching.length then some .RecordReadError
    else none)

/-- Modelled from the spec: `store.VRFKeyStore.Delete` is not under `src/`.
Spec §4.6: removes the matching record(s); fails with the no-such-key error
`AttemptToDeleteNonExistentKeyFromDB` if none exist. -/
def ksDelete (registry : List Bytes) (pk : String) : Except KsError (List Bytes) :=
  if matchingRecords registry pk = [] then
    .error .AttemptToDeleteNonExistentKeyFromDB
  else .ok (registry.filter (fun r => !(r.publicKeyOf == some pk)))

/-- Modelled from the spec: `passwordFromFile` lives elsewhere in the `cmd`
package, not under `src/`: it reads the password file's raw contents,
erroring when the file cannot be read. -/
def passwordFromFile (path : String) (fs : FS) : Except GoError Bytes :=
  match fs.read path with
  | none => .error (.errorf ("open " ++ path ++ ": no such file or directory"))
  | some contents => .ok contents

/-- Modelled from the spec: `vrfkey` record disk export (`key.WriteToDisk`)
is not under `src/`.  Spec §2 Disk Adapter: serializes the record to the
given path, failing when the filesystem write fails. -/
def WriteToDisk (key : Bytes) (path : String) (fs : FS) : Except GoError FS :=
  match fs.write path key with
  | none => .error (.errorf ("could not write key to " ++ path))
  | some fs' => .ok fs'

/-- `core/cmd/local_client_vrf.go` `getPassword`: retrieves the password from
the file specified on the command line, or errors. -/
def getPassword (c : Context) (fs : FS) : Except GoError Bytes :=
  match c.password with
  | none => .error (.errorf "must specify password file")
  | some ppath =>
    match passwordFromFile ppath fs with
    | .error e => .error (.wrap e ("could not read password from file " ++ ppath))
    | .ok rawPassword => .ok rawPassword

/-- `core/cmd/local_client_vrf.go` `getPasswordAndKeyFile`: retrieves the
password and key json from the files specified on the command line. -/
def getPasswordAndKeyFile (c : Context) (fs : FS) : Except GoError (Bytes × Bytes) :=
  match getPassword c fs with
  | .error e => .error e
  | .ok password =>
    match c.file with
    | none => .error (.errorf "must specify key file")
    | some keypath =>
      match fs.read keypath with
      | none =>
          .error (.wrap (.errorf ("open " ++ keypath ++ ": no such file or directory"))
            ("failed to read file " ++ keypath))
      | some keyjson => .ok (password, keyjson)

/-- The success message printed by `CreateVRFKey`. -/
def createdKeyMsg (key : String) : String :=
  "Created keypair, with public key\n\n" ++ key ++
    "\n\nThe following command will export the encrypted secret key from the db to <save_path>:\n\n" ++
    "chainlink local vrf export -f <save_path> -pk " ++ key ++ "\n"

/-- `core/cmd/local_client_vrf.go` `CreateVRFKey`: creates a key in the VRF
keystore, protected by the password in the password file.  The `freshPk` and
`persistOk` arguments are the keystore oracle (randomness and storage
outcome). -/
def CreateVRFKey (freshPk : String) (persistOk : Bool) (c : Context) (w : World) :
    Option GoError × World :=
  match getPassword c w.fs with
  | .error e => (some e, w)
  | .ok password =>
    match ksCreateKey w.registry password freshPk persistOk with
    | (.error e, es) =>
        (some (.wrap (.ksErr e) "while creating new account"),
          { w with events := w.events ++ [Event.ksCreateKeyCall password] ++ es })
    | (.ok (key, registry'), es) =>
        (none,
          { w with registry := registry',
                   out := w.out ++ [createdKeyMsg key],
                   events := w.events ++ [Event.ksCreateKeyCall password] ++ es })

/-- The refusal printed and returned by `CreateAndExportWeakVRFKey` when no
fresh target file path is supplied. -/
def overwriteErrMsg : String := "must specify path to key file which does not already exist"

/-- `core/cmd/local_client_vrf.go` `noFileToOverwrite`: `os.Stat` reports
that no file exists at the path. -/
def noFileToOverwrite (path : String) (fs : FS) : Bool :=
  (fs.read path).isNone

/-- `core/cmd/local_client_vrf.go` `CreateAndExportWeakVRFKey`: creates a key
with weak key-derivation parameters, for testing only; the key is only stored
at the specified file location, not stored in the DB. -/
def CreateAndExportWeakVRFKey (freshPk : String) (genOk : Bool) (c : Context)
    (w : World) : Option GoError × World :=
  match getPassword c w.fs with
  | .error e => (some e, w)
  | .ok password =>
    match ksCreateWeak password freshPk genOk with
    | (.error e, es) =>
        (some (.wrap (.ksErr e) "while creating testing key"),
          { w with events := w.events ++ [Event.ksCreateWeakCall password] ++ es })
    | (.ok key, es) =>
      let w1 := { w with events := w.events ++ [Event.ksCreateWeakCall password] ++ es }
      match c.file with
      | none =>
          (some (.errorf overwriteErrMsg), { w1 with out := w1.out ++ [overwriteErrMsg] })
      | some fpath =>
        if !(noFileToOverwrite fpath w1.fs) then
          (some (.errorf overwriteErrMsg), { w1 with out := w1.out ++ [overwriteErrMsg] })
        else
          let w2 := { w1 with out := w1.out ++ ["Don't use this key for anything sensitive!"] }
          match WriteToDisk key fpath w2.fs with
          | .error e => (some e, w2)
          | .ok fs' =>
              (none, { w2 with fs := fs',
                               events := w2.events ++ [Event.fileWrite fpath key] })

/-- First line printed by `ImportVRFKey` on a duplicate key. -/
def dbHasEntryMsg : String := "The database already has an entry for that public key."

/-- The delete-then-reimport remedy printed by `ImportVRFKey` on a duplicate
key, naming the public key, the exact delete command, and the backup-export
command. -/
def importRemedyMsg (pk : String) : String :=
  "If you want to import the new key anyway, delete the old key with the command\n\n" ++
    "`chainlink local delete -pk " ++ pk ++ "`\n\n" ++
    "(but maybe back it up first, with chainlink local export -pk <public_key> -f <backup_path>`)"

/-- Go `json.Unmarshal(keyjson, &struct{ PublicKey string })`: extracts the
`PublicKey` field when the bytes are a serialized record. -/
def unmarshalPublicKeyField : Bytes → Option String
  | .raw _ => none
  | .record pk _ _ => some pk

/-- `core/cmd/local_client_vrf.go` `ImportVRFKey`: reads a key file into an
encrypted secret key in the db; on a duplicate public key prints the
delete-then-reimport remedy. -/
def ImportVRFKey (c : Context) (w : World) : Option GoError × World :=
  match getPasswordAndKeyFile c w.fs with
  | .error e => (some e, w)
  | .ok (password, keyjson) =>
    let w1 := { w with events := w.events ++ [Event.ksImportCall keyjson password] }
    match ksImport w.registry keyjson password with
    | .error KsError.MatchingVRFKeyError =>
      let w2 := { w1 with out := w1.out ++ [dbHasEntryMsg] }
      match unmarshalPublicKeyField keyjson with
      | none =>
          (some (.wrap (.errorf "json unmarshal failure")
              ("while extracting public key from " ++ keyjson.render)),
            { w2 with out := w2.out ++ ["could not extract public key from json input"] })
      | some pk =>
          (some (.wrap (.ksErr KsError.MatchingVRFKeyError)
              "while attempting to import key from CL"),
            { w2 with out := w2.out ++ [importRemedyMsg pk] })
    | .error e => (some (.ksErr e), w1)
    | .ok registry' => (none, { w1 with registry := registry' })

/-- `core/cmd/local_client_vrf.go` `getPublicKey`: the public key named on
the command line, parsed from hex. -/
def getPublicKey (c : Context) : Except GoError String :=
  match c.publicKey with
  | none => .error (.errorf "must specify public key")
  | some s =>
    match NewPublicKeyFromHex s with
    | none => .error (.wrap (.errorf ("invalid public key hex " ++ s)) "failed to parse public key")
    | some publicKey => .ok publicKey

/-- `core/cmd/local_client_vrf.go` `getKeys`: retrieves the keys for an
`ExportVRFKey` request, tolerating keystore lookup errors (logging them), in
case some keys were retrievable. -/
def getKeys (unreadable : List Bytes) (c : Context) (w : World) :
    Except GoError (List Bytes) × World :=
  match getPublicKey c with
  | .error e => (.error e, w)
  | .ok publicKey =>
    let w1 := { w with events := w.events ++ [Event.ksExportCall publicKey] }
    match ksExport w.registry publicKey unreadable with
    | (enckeys, none) => (.ok enckeys, w1)
    | (enckeys, some e) =>
        (.ok enckeys,
          { w1 with log := w1.log ++
              [⟨"while retrieving keys with matching public key", publicKey, e⟩] })

/-- The target path for the `i`-th exported record:
`fmt.Sprintf("%s.%d", keypath, i)` for `i > 0`, the base path for `i = 0`. -/
def exportPath (keypath : String) (i : Nat) : String :=
  if i > 0 then keypath ++ "." ++ Nat.repr i else keypath

/-- The write loop of `ExportVRFKey`: writes record `i` to
`exportPath keypath i`, returning on the first write error.  Returns the
error (if any), the final filesystem, and the file-write events performed. -/
def writeKeysLoop (keypath : String) : Nat → List Bytes → FS →
    Option GoError × FS × List Event
  | _, [], fs => (none, fs, [])
  | i, keyjson :: rest, fs =>
    let ckeypath := exportPath keypath i
    match fs.write ckeypath keyjson with
    | none =>
        (some (.wrap (.errorf "write failure")
            ("could not save " ++ keyjson.render ++ " to " ++ ckeypath)), fs, [])
    | some fs' =>
      match writeKeysLoop keypath (i + 1) rest fs' with
      | (r, fs'', es) => (r, fs'', Event.fileWrite ckeypath keyjson :: es)

/-- `core/cmd/local_client_vrf.go` `ExportVRFKey`: saves the encrypted copies
of the VRF key with the given public key to the requested file path; copies
past the first get extensions `.1`, `.2`, etc. -/
def ExportVRFKey (unreadable : List Bytes) (c : Context) (w : World) :
    Option GoError × World :=
  match getKeys unreadable c w with
  | (.error e, w1) => (some e, w1)
  | (.ok enckeys, w1) =>
    match c.file with
    | none => (some (.errorf "must specify file to export to"), w1)
    | some keypath =>
      match writeKeysLoop keypath 0 enckeys w1.fs with
      | (r, fs', es) => (r, { w1 with fs := fs', events := w1.events ++ es })

/-- Message printed by `DeleteVRFKey` when the key is already absent. -/
def noEntryMsg (pk : String) : String :=
  "There is already no entry in the DB for " ++ pk

/-- `core/cmd/local_client_vrf.go` `DeleteVRFKey`: deletes the VRF key with
the given public key from the db. -/
def DeleteVRFKey (c : Context) (w : World) : Option GoError × World :=
  match getPublicKey c with
  | .error e => (some e, w)
  | .ok publicKey =>
    let w1 := { w with events := w.events ++ [Event.ksDeleteCall publicKey] }
    match ksDelete w.registry publicKey with
    | .error e =>
      if e = KsError.AttemptToDeleteNonExistentKeyFromDB then
        (some (.ksErr e), { w1 with out := w1.out ++ [noEntryMsg publicKey] })
      else (some (.ksErr e), w1)
    | .ok registry' => (none, { w1 with registry := registry' })

/-- `core/cmd/local_client_vrf.go` `Forget`: returns nil and does nothing. -/
def Forget (_c : Context) (w : World) : Option GoError × World := (none, w)

/-- The keystore-invocation events in a trace. -/
def ksCalls (es : List Event) : List Event :=
  es.filter (fun e =>
    match e with
    | .ksCreateKeyCall _ | .ksCreateWeakCall _ | .ksImportCall _ _
    | .ksExportCall _ | .ksDeleteCall _ => true
    | _ => false)

/-- The file-write events in a trace. -/
def fileWrites (es : List Event) : List Event :=
  es.filter (fun e =>
    match e with
    | .fileWrite _ _ => true
    | _ => false)

/-! ## Decimal representation: `Nat.repr` is injective

`fmt.Sprintf("%s.%d", keypath, i)` appends the decimal representation of the
index; distinctness of the export paths rests on the injectivity of the
decimal rendering, proved here against Lean's own `Nat.repr`. -/

/-- Decimal digit characters of `n`, most significant first: the fuel-free
counterpart of `Nat.toDigitsCore`. -/
def decDigits (n : Nat) : List Char :=
  if _h : n < 10 then [Nat.digitChar n]
  else decDigits (n / 10) ++ [Nat.digitChar (n % 10)]
termination_by n
decreasing_by
  exact Nat.div_lt_self (by omega) (by omega)

theorem decDigits_small (n : Nat) (h : n < 10) : decDigits n = [Nat.digitChar n] := by
  rw [decDigits]
  simp [h]

theorem decDigits_big (n : Nat) (h : ¬n < 10) :
    decDigits n = decDigits (n / 10) ++ [Nat.digitChar (n % 10)] := by
  rw [decDigits]
  simp [h]

theorem toDigitsCore_succ_small (f n : Nat) (acc : List Char) (h : n / 10 = 0) :
    Nat.toDigitsCore 10 (f + 1) n acc = Nat.digitChar (n % 10) :: acc := by
  simp [Nat.toDigitsCore, h]

theorem toDigitsCore_succ_big (f n : Nat) (acc : List Char) (h : ¬n / 10 = 0) :
    Nat.toDigitsCore 10 (f + 1) n acc =
      Nat.toDigitsCore 10 f (n / 10) (Nat.digitChar (n % 10) :: acc) := by
  simp [Nat.toDigitsCore, h]

theorem toDigitsCore_eq_decDigits (fuel : Nat) :
    ∀ (n : Nat) (acc : List Char), n < fuel →
      Nat.toDigitsCore 10 fuel n acc = decDigits n ++ acc := by
  induction fuel with
  | zero => intro n acc h; omega
  | succ f ih =>
    intro n acc h
    by_cases h10 : n / 10 = 0
    · have hn : n < 10 := by omega
      rw [toDigitsCore_succ_small f n acc h10, decDigits_small n hn,
        Nat.mod_eq_of_lt hn]
      rfl
    · have hn : ¬n < 10 := by omega
      have hlt : n / 10 < f := by omega
      rw [toDigitsCore_succ_big f n acc h10, ih (n / 10) _ hlt,
        decDigits_big n hn, List.append_assoc]
      rfl

theorem nat_repr_eq_decDigits (n : Nat) : Nat.repr n = (decDigits n).asString := by
  show (Nat.toDigitsCore 10 (n + 1) n []).asString = _
  rw [toDigitsCore_eq_decDigits (n + 1) n [] (Nat.lt_succ_self n), List.append_nil]

/-- Numeric value of a decimal digit character. -/
def digitVal (c : Char) : Nat := c.toNat - 48

/-- Value of a most-significant-first decimal digit string. -/
def digitsVal (l : List Char) : Nat :=
  l.foldl (fun a c => 10 * a + digitVal c) 0

theorem digitVal_digitChar : ∀ d : Nat, d < 10 → digitVal (Nat.digitChar d) = d := by
  decide

theorem digitsVal_append_singleton (l : List Char) (c : Char) :
    digitsVal (l ++ [c]) = 10 * digitsVal l + digitVal c := by
  simp [digitsVal, List.foldl_append]

theorem digitsVal_decDigits (n : Nat) : digitsVal (decDigits n) = n := by
  induction n using Nat.strong_induction_on with
  | _ n ih =>
    by_cases h : n < 10
    · rw [decDigits_small n h]
      simp [digitsVal, digitVal_digitChar n h]
    · rw [decDigits_big n h, digitsVal_append_singleton,
        ih (n / 10) (Nat.div_lt_self (by omega) (by omega)),
        digitVal_digitChar (n % 10) (Nat.mod_lt n (by omega))]
      omega

theorem decDigits_injective : Function.Injective decDigits := by
  intro a b h
  rw [← digitsVal_decDigits a, ← digitsVal_decDigits b, h]

theorem nat_repr_injective : Function.Injective Nat.repr := by
  intro a b h
  rw [nat_repr_eq_decDigits a, nat_repr_eq_decDigits b] at h
  exact decDigits_injective (congrArg String.data h)

/-! ## Export path distinctness -/

theorem string_data_append (s t : String) : (s ++ t).data = s.data ++ t.data := rfl

theorem string_eq_of_data_eq (s t : String) (h : s.data = t.data) : s = t := by
  cases s
  cases t
  exact congrArg String.mk h

theorem exportPath_zero (keypath : String) : exportPath keypath 0 = keypath := rfl

theorem exportPath_pos (keypath : String) (i : Nat) (h : 0 < i) :
    exportPath keypath i = keypath ++ "." ++ Nat.repr i := by
  simp [exportPath, h]

theorem exportPath_injective (keypath : String) :
    Function.Injective (exportPath keypath) := by
  intro i j h
  rcases Nat.eq_zero_or_pos i with hi | hi <;> rcases Nat.eq_zero_or_pos j with hj | hj
  · omega
  · exfalso
    subst hi
    rw [exportPath_zero, exportPath_pos keypath j hj] at h
    have hd := congrArg String.data h
    rw [string_data_append, string_data_append] at hd
    have := congrArg List.length hd
    simp at this
  · exfalso
    subst hj
    rw [exportPath_zero, exportPath_pos keypath i hi] at h
    have hd := congrArg String.data h
    rw [string_data_append, string_data_append] at hd
    have := congrArg List.length hd
    simp at this
  · rw [exportPath_pos keypath i hi, exportPath_pos keypath j hj] at h
    have hd := congrArg String.data h
    rw [string_data_append, string_data_append, string_data_append,
      string_data_append, List.append_assoc, List.append_assoc] at hd
    have hr : (Nat.repr i).data = (Nat.repr j).data :=
      List.append_cancel_left (List.append_cancel_left hd)
    exact nat_repr_injective (string_eq_of_data_eq _ _ hr)

theorem exportPaths_nodup (keypath : String) (n : Nat) :
    ((List.range n).map (exportPath keypath)).Nodup :=
  (List.nodup_range n).map (exportPath_injective keypath)

/-! ## Association-list lookups and the export write loop -/

theorem lookup_append (k : String) (l1 l2 : List (String × Bytes)) :
    (l1 ++ l2).lookup k = (l1.lookup k).orElse (fun _ => l2.lookup k) := by
  induction l1 with
  | nil => simp [List.lookup]
  | cons p rest ih =>
    obtain ⟨k', v⟩ := p
    by_cases h : k = k'
    · subst h
      simp [List.lookup, Option.orElse]
    · have hb : (k == k') = false := beq_eq_false_iff_ne.mpr h
      simp [List.lookup, hb, ih]

theorem lookup_eq_of_mem_of_nodupkeys (l : List (String × Bytes)) (k : String)
    (v : Bytes) (hmem : (k, v) ∈ l) (hnd : (l.map Prod.fst).Nodup) :
    l.lookup k = some v := by
  induction l with
  | nil => simp at hmem
  | cons p rest ih =>
    obtain ⟨k', v'⟩ := p
    rw [List.map_cons, List.nodup_cons] at hnd
    rcases List.mem_cons.mp hmem with heq | hmem'
    · injection heq with h1 h2
      subst h1
      subst h2
      simp [List.lookup]
    · have hne : (k == k') = false := by
        refine beq_eq_false_iff_ne.mpr ?_
        intro hkk
        apply hnd.1
        show k' ∈ List.map Prod.fst rest
        rw [← hkk]
        exact List.mem_map_of_mem Prod.fst hmem'
      simp [List.lookup, hne, ih hmem' hnd.2]

/-- The path/content pairs the export loop writes for records `ks` starting
at index `start`. -/
def exportPairs (keypath : String) (start : Nat) (ks : List Bytes) :
    List (String × Bytes) :=
  (ks.enumFrom start).map (fun p => (exportPath keypath p.1, p.2))

theorem exportPairs_nil (keypath : String) (start : Nat) :
    exportPairs keypath start [] = [] := rfl

theorem exportPairs_cons (keypath : String) (start : Nat) (b : Bytes)
    (rest : List Bytes) :
    exportPairs keypath start (b :: rest) =
      (exportPath keypath start, b) :: exportPairs keypath (start + 1) rest := by
  simp [exportPairs, List.enumFrom_cons]

theorem exportPairs_map_fst (keypath : String) (start : Nat) (ks : List Bytes) :
    (exportPairs keypath start ks).map Prod.fst =
      (List.range' start ks.length).map (exportPath keypath) := by
  induction ks generalizing start with
  | nil => rfl
  | cons b rest ih =>
    rw [exportPairs_cons, List.map_cons, List.length_cons, List.range'_succ,
      List.map_cons, ih (start + 1)]

theorem exportPairs_keys_nodup (keypath : String) (start : Nat) (ks : List Bytes) :
    ((exportPairs keypath start ks).map Prod.fst).Nodup := by
  rw [exportPairs_map_fst]
  exact List.Nodup.map (exportPath_injective keypath) (List.nodup_range' start ks.length)

theorem exportPairs_mem (keypath : String) (start : Nat) (ks : List Bytes)
    (k : Nat) (hk : k < ks.length) :
    (exportPath keypath (start + k), ks.get ⟨k, hk⟩) ∈ exportPairs keypath start ks := by
  induction ks generalizing start k with
  | nil => simp at hk
  | cons b rest ih =>
    rw [exportPairs_cons]
    cases k with
    | zero => simp
    | succ k' =>
      have harith : start + (k' + 1) = (start + 1) + k' := by omega
      rw [harith]
      exact List.mem_cons_of_mem _ (ih (start + 1) k' (by simpa using hk))

theorem fs_read_exportPairs (keypath : String) (start : Nat) (ks : List Bytes)
    (old : List (String × Bytes)) (wf : List String) (k : Nat) (hk : k < ks.length) :
    FS.read ⟨(exportPairs keypath start ks).reverse ++ old, wf⟩
        (exportPath keypath (start + k)) = some (ks.get ⟨k, hk⟩) := by
  show ((exportPairs keypath start ks).reverse ++ old).lookup _ = _
  rw [lookup_append]
  have hmem : (exportPath keypath (start + k), ks.get ⟨k, hk⟩) ∈
      (exportPairs keypath start ks).reverse := by
    rw [List.mem_reverse]
    exact exportPairs_mem keypath start ks k hk
  have hnd : ((exportPairs keypath start ks).reverse.map Prod.fst).Nodup := by
    rw [List.map_reverse]
    exact List.nodup_reverse.mpr (exportPairs_keys_nodup keypath start ks)
  rw [lookup_eq_of_mem_of_nodupkeys _ _ _ hmem hnd]
  rfl

theorem writeKeysLoop_success (keypath : String) (ks : List Bytes) (start : Nat)
    (fs : FS) (h : ∀ k, k < ks.length → exportPath keypath (start + k) ∉ fs.writeFails) :
    writeKeysLoop keypath start ks fs =
      (none, ⟨(exportPairs keypath start ks).reverse ++ fs.files, fs.writeFails⟩,
        (exportPairs keypath start ks).map (fun q => Event.fileWrite q.1 q.2)) := by
  induction ks generalizing start fs with
  | nil => simp [writeKeysLoop, exportPairs_nil]
  | cons b rest ih =>
    have h0 : exportPath keypath start ∉ fs.writeFails := by
      have := h 0 (by simp)
      simpa using this
    have hrest : ∀ k, k < rest.length →
        exportPath keypath (start + 1 + k) ∉ fs.writeFails := by
      intro k hk
      have := h (k + 1) (by simpa using hk)
      have harith : start + (k + 1) = start + 1 + k := by omega
      rwa [harith] at this
    have hw : fs.write (exportPath keypath start) b =
        some ⟨(exportPath keypath start, b) :: fs.files, fs.writeFails⟩ := by
      simp [FS.write, h0]
    rw [writeKeysLoop]
    simp only [hw,
      ih (start + 1) ⟨(exportPath keypath start, b) :: fs.files, fs.writeFails⟩ hrest]
    rw [exportPairs_cons, List.reverse_cons, List.map_cons, List.append_assoc]
    rfl

theorem writeKeysLoop_fail (keypath : String) (ks : List Bytes) (start i : Nat)
    (fs : FS) (hi : i < ks.length)
    (hpre : ∀ k, k < i → exportPath keypath (start + k) ∉ fs.writeFails)
    (hfail : exportPath keypath (start + i) ∈ fs.writeFails) :
    writeKeysLoop keypath start ks fs =
      (some (GoError.wrap (GoError.errorf "write failure")
          ("could not save " ++ (ks.get ⟨i, hi⟩).render ++ " to " ++
            exportPath keypath (start + i))),
        ⟨(exportPairs keypath start (ks.take i)).reverse ++ fs.files, fs.writeFails⟩,
        (exportPairs keypath start (ks.take i)).map
          (fun q => Event.fileWrite q.1 q.2)) := by
  induction ks generalizing start i fs with
  | nil => simp at hi
  | cons b rest ih =>
    cases i with
    | zero =>
      have hfail0 : exportPath keypath start ∈ fs.writeFails := by simpa using hfail
      have hw : fs.write (exportPath keypath start) b = none := by
        simp [FS.write, hfail0]
      rw [writeKeysLoop]
      simp only [hw]
      simp [exportPairs_nil]
    | succ i' =>
      have h0 : exportPath keypath start ∉ fs.writeFails := by
        have := hpre 0 (Nat.succ_pos i')
        simpa using this
      have hw : fs.write (exportPath keypath start) b =
          some ⟨(exportPath keypath start, b) :: fs.files, fs.writeFails⟩ := by
        simp [FS.write, h0]
      have hi' : i' < rest.length := by simpa using hi
      have hpre' : ∀ k, k < i' →
          exportPath keypath (start + 1 + k) ∉ fs.writeFails := by
        intro k hk
        have hmem := hpre (k + 1) (by omega)
        have harith : start + (k + 1) = start + 1 + k := by omega
        rwa [harith] at hmem
      have harith : start + (i' + 1) = start + 1 + i' := by omega
      have hfail' : exportPath keypath (start + 1 + i') ∈ fs.writeFails := by
        rwa [harith] at hfail
      rw [harith, List.take_succ_cons, exportPairs_cons, List.reverse_cons,
        List.append_assoc, writeKeysLoop]
      simp only [hw,
        ih (start + 1) i' ⟨(exportPath keypath start, b) :: fs.files, fs.writeFails⟩
          hi' hpre' hfail']
      rfl

/-! ## Claim theorems -/

/-- A concrete well-formed public key (64 hex characters) for witnesses. -/
def hexKey64 : String :=
  "aaaaaaaaaaaaaaaaaaaaaaaaaaaaaaaaaaaaaaaaaaaaaaaaaaaaaaaaaaaaaaaa"

/-- Claim C9: the `Forget` operation returns no error for every input and
performs no action: the registry, filesystem, output, log and event trace
are all returned unchanged. -/
theorem forget_returns_nil_and_changes_nothing (c : Context) (w : World) :
    Forget c w = (none, w) := rfl

/-- Claim C8: on every successful key creation `CreateVRFKey` returns without
error and prints the new public key together with the exact export command
for backing up the encrypted secret key; on keystore (persistence) failure it
returns the wrapped error and prints no public key. -/
theorem createVRFKey_output (c : Context) (w : World)
    (freshPk : String) (password : Bytes)
    (hpw : getPassword c w.fs = .ok password) :
    (CreateVRFKey freshPk true c w).1 = none
    ∧ (CreateVRFKey freshPk true c w).2.out = w.out ++ [createdKeyMsg freshPk]
    ∧ createdKeyMsg freshPk =
        "Created keypair, with public key\n\n" ++ freshPk ++
          "\n\nThe following command will export the encrypted secret key from the db to <save_path>:\n\n" ++
          "chainlink local vrf export -f <save_path> -pk " ++ freshPk ++ "\n"
    ∧ (CreateVRFKey freshPk false c w).1 =
        some (GoError.wrap (GoError.ksErr KsError.PersistenceError)
          "while creating new account")
    ∧ (CreateVRFKey freshPk false c w).2.out = w.out := by
  unfold CreateVRFKey
  rw [hpw]
  simp [ksCreateKey, createdKeyMsg]

/-- Witness for C8: concrete run with password file `p` containing `pw`. -/
theorem createVRFKey_output_witness :
    (CreateVRFKey "k1" true ⟨some "p", none, none⟩
        ⟨[], ⟨[("p", Bytes.raw "pw")], []⟩, [], [], []⟩).1 = none
    ∧ (CreateVRFKey "k1" true ⟨some "p", none, none⟩
        ⟨[], ⟨[("p", Bytes.raw "pw")], []⟩, [], [], []⟩).2.out = [createdKeyMsg "k1"]
    ∧ (CreateVRFKey "k1" false ⟨some "p", none, none⟩
        ⟨[], ⟨[("p", Bytes.raw "pw")], []⟩, [], [], []⟩).2.out = [] := by
  have h := createVRFKey_output ⟨some "p", none, none⟩
    ⟨[], ⟨[("p", Bytes.raw "pw")], []⟩, [], [], []⟩ "k1" (Bytes.raw "pw") (by rfl)
  exact ⟨h.1, h.2.1, h.2.2.2.2⟩

/-- Claim C5: deleting a public key with no record in the registry fails with
the no-such-key error (the operation is not idempotent-silent) and prints a
message naming the offending public key; the registry is unchanged. -/
theorem deleteVRFKey_no_such_key (c : Context) (w : World) (s pk : String)
    (hflag : c.publicKey = some s) (hparse : NewPublicKeyFromHex s = some pk)
    (hnone : matchingRecords w.registry pk = []) :
    (DeleteVRFKey c w).1 =
      some (GoError.ksErr KsError.AttemptToDeleteNonExistentKeyFromDB)
    ∧ (DeleteVRFKey c w).2.out = w.out ++ [noEntryMsg pk]
    ∧ noEntryMsg pk = "There is already no entry in the DB for " ++ pk
    ∧ (DeleteVRFKey c w).2.registry = w.registry := by
  have hmain : (DeleteVRFKey c w).1 =
        some (GoError.ksErr KsError.AttemptToDeleteNonExistentKeyFromDB)
      ∧ (DeleteVRFKey c w).2.out = w.out ++ [noEntryMsg pk]
      ∧ (DeleteVRFKey c w).2.registry = w.registry := by
    unfold DeleteVRFKey getPublicKey
    simp [hflag, hparse, ksDelete, hnone]
  exact ⟨hmain.1, hmain.2.1, rfl, hmain.2.2⟩

/-- Witness for C5: deleting `hexKey64` from an empty registry. -/
theorem deleteVRFKey_no_such_key_witness :
    (DeleteVRFKey ⟨none, none, some hexKey64⟩ ⟨[], ⟨[], []⟩, [], [], []⟩).1 =
      some (GoError.ksErr KsError.AttemptToDeleteNonExistentKeyFromDB)
    ∧ (DeleteVRFKey ⟨none, none, some hexKey64⟩ ⟨[], ⟨[], []⟩, [], [], []⟩).2.out =
        ["There is already no entry in the DB for " ++ hexKey64] := by
  have h := deleteVRFKey_no_such_key ⟨none, none, some hexKey64⟩
    ⟨[], ⟨[], []⟩, [], [], []⟩ hexKey64 hexKey64 rfl (by decide) rfl
  exact ⟨h.1, h.2.1⟩

/-- Claim C4: importing a record whose public key already exists in the
registry fails with the duplicate-key error, leaves the registry unchanged,
and prints both the duplicate notice and the remedy naming the existing
public key, the exact delete-by-public-key command, and the optional
backup-export command, before retrying the import. -/
theorem importVRFKey_duplicate_key (c : Context) (w : World) (password : Bytes)
    (pk : String) (weak : Bool)
    (hread : getPasswordAndKeyFile c w.fs = .ok (password, Bytes.record pk password weak))
    (hdup : matchingRecords w.registry pk ≠ []) :
    (ImportVRFKey c w).1 =
      some (GoError.wrap (GoError.ksErr KsError.MatchingVRFKeyError)
        "while attempting to import key from CL")
    ∧ (ImportVRFKey c w).2.registry = w.registry
    ∧ (ImportVRFKey c w).2.out = w.out ++ [dbHasEntryMsg, importRemedyMsg pk]
    ∧ dbHasEntryMsg = "The database already has an entry for that public key."
    ∧ importRemedyMsg pk =
        "If you want to import the new key anyway, delete the old key with the command\n\n" ++
          "`chainlink local delete -pk " ++ pk ++ "`\n\n" ++
          "(but maybe back it up first, with chainlink local export -pk <public_key> -f <backup_path>`)" := by
  have hmain : (ImportVRFKey c w).1 =
        some (GoError.wrap (GoError.ksErr KsError.MatchingVRFKeyError)
          "while attempting to import key from CL")
      ∧ (ImportVRFKey c w).2.registry = w.registry
      ∧ (ImportVRFKey c w).2.out = w.out ++ [dbHasEntryMsg, importRemedyMsg pk] := by
    unfold ImportVRFKey
    rw [hread]
    simp [ksImport, hdup, unmarshalPublicKeyField]
  exact ⟨hmain.1, hmain.2.1, hmain.2.2, rfl, rfl⟩

/-- Witness for C4: importing a record for `hexKey64` when the registry
already holds one. -/
theorem importVRFKey_duplicate_key_witness :
    (ImportVRFKey ⟨some "p", some "key.json", none⟩
        ⟨[Bytes.record hexKey64 (Bytes.raw "old") false],
          ⟨[("p", Bytes.raw "pw"),
            ("key.json", Bytes.record hexKey64 (Bytes.raw "pw") false)], []⟩,
          [], [], []⟩).1 =
      some (GoError.wrap (GoError.ksErr KsError.MatchingVRFKeyError)
        "while attempting to import key from CL")
    ∧ (ImportVRFKey ⟨some "p", some "key.json", none⟩
        ⟨[Bytes.record hexKey64 (Bytes.raw "old") false],
          ⟨[("p", Bytes.raw "pw"),
            ("key.json", Bytes.record hexKey64 (Bytes.raw "pw") false)], []⟩,
          [], [], []⟩).2.out = [dbHasEntryMsg, importRemedyMsg hexKey64] := by
  have h := importVRFKey_duplicate_key ⟨some "p", some "key.json", none⟩
    ⟨[Bytes.record hexKey64 (Bytes.raw "old") false],
      ⟨[("p", Bytes.raw "pw"),
        ("key.json", Bytes.record hexKey64 (Bytes.raw "pw") false)], []⟩,
      [], [], []⟩ (Bytes.raw "pw") hexKey64 false (by rfl) (by decide)
  exact ⟨h.1, h.2.2.1⟩

/-- Claim C2 (counterexample): with the password file readable and the `file`
flag not supplied, `CreateAndExportWeakVRFKey` fails with the
overwrite-refused error, yet key material HAS been generated before the
failure — the generation event is in the trace.  This refutes "fails ...
before any key material is generated": the code generates the weak key first
and checks the target file only afterwards. -/
theorem createWeak_generates_before_file_check :
    (CreateAndExportWeakVRFKey "k0" true ⟨some "pw.txt", none, none⟩
        ⟨[], ⟨[("pw.txt", Bytes.raw "hunter2")], []⟩, [], [], []⟩).1 =
      some (GoError.errorf overwriteErrMsg)
    ∧ Event.keyGenerated "k0" ∈
        (CreateAndExportWeakVRFKey "k0" true ⟨some "pw.txt", none, none⟩
          ⟨[], ⟨[("pw.txt", Bytes.raw "hunter2")], []⟩, [], [], []⟩).2.events := by
  decide

/-- Claim C2 (amended): when the caller does not supply a target file path, or
supplies a path at which a file already exists, the weak-testing-key creation
fails with the overwrite-refused error before any key material is *written*
to disk — the filesystem, registry and output are exactly as before apart
from the printed refusal, and no file-write event occurs — but *after* the
key material has been generated (the trace ends with the generation event). -/
theorem createWeak_overwrite_refused (c : Context) (w : World)
    (freshPk : String) (password : Bytes)
    (hpw : getPassword c w.fs = .ok password)
    (hfile : c.file = none ∨ ∃ f, c.file = some f ∧ noFileToOverwrite f w.fs = false) :
    (CreateAndExportWeakVRFKey freshPk true c w).1 = some (GoError.errorf overwriteErrMsg)
    ∧ (CreateAndExportWeakVRFKey freshPk true c w).2.fs = w.fs
    ∧ (CreateAndExportWeakVRFKey freshPk true c w).2.registry = w.registry
    ∧ (CreateAndExportWeakVRFKey freshPk true c w).2.out = w.out ++ [overwriteErrMsg]
    ∧ (CreateAndExportWeakVRFKey freshPk true c w).2.events =
        w.events ++ [Event.ksCreateWeakCall password, Event.keyGenerated freshPk] := by
  unfold CreateAndExportWeakVRFKey
  rw [hpw]
  rcases hfile with hnone | ⟨f, hf, hexist⟩
  · simp [ksCreateWeak, hnone]
  · simp [ksCreateWeak, hf, hexist]

/-- Witness for the amended C2: target file `key.json` already exists. -/
theorem createWeak_overwrite_refused_witness :
    (CreateAndExportWeakVRFKey "k0" true ⟨some "pw.txt", some "key.json", none⟩
        ⟨[], ⟨[("pw.txt", Bytes.raw "hunter2"), ("key.json", Bytes.raw "occupied")], []⟩,
          [], [], []⟩).1 = some (GoError.errorf overwriteErrMsg)
    ∧ (CreateAndExportWeakVRFKey "k0" true ⟨some "pw.txt", some "key.json", none⟩
        ⟨[], ⟨[("pw.txt", Bytes.raw "hunter2"), ("key.json", Bytes.raw "occupied")], []⟩,
          [], [], []⟩).2.fs =
        ⟨[("pw.txt", Bytes.raw "hunter2"), ("key.json", Bytes.raw "occupied")], []⟩
    ∧ (CreateAndExportWeakVRFKey "k0" true ⟨some "pw.txt", some "key.json", none⟩
        ⟨[], ⟨[("pw.txt", Bytes.raw "hunter2"), ("key.json", Bytes.raw "occupied")], []⟩,
          [], [], []⟩).2.registry = [] := by
  have h := createWeak_overwrite_refused ⟨some "pw.txt", some "key.json", none⟩
    ⟨[], ⟨[("pw.txt", Bytes.raw "hunter2"), ("key.json", Bytes.raw "occupied")], []⟩,
      [], [], []⟩ "k0" (Bytes.raw "hunter2") (by rfl)
    (Or.inr ⟨"key.json", rfl, by rfl⟩)
  exact ⟨h.1, h.2.1, h.2.2.1⟩

/-- Claim C6: every successful weak-testing-key creation writes the resulting
record only to the specified file (exactly one file-write event, carrying the
record) and never writes to the persistent registry: the registry component
of the final world equals the initial one. -/
theorem createWeak_registry_unchanged (c : Context) (w : World)
    (freshPk : String) (password : Bytes) (fpath : String)
    (hpw : getPassword c w.fs = .ok password)
    (hfile : c.file = some fpath)
    (hfresh : noFileToOverwrite fpath w.fs = true)
    (hok : fpath ∉ w.fs.writeFails) :
    (CreateAndExportWeakVRFKey freshPk true c w).1 = none
    ∧ (CreateAndExportWeakVRFKey freshPk true c w).2.registry = w.registry
    ∧ (CreateAndExportWeakVRFKey freshPk true c w).2.fs.files =
        (fpath, Bytes.record freshPk password true) :: w.fs.files
    ∧ (CreateAndExportWeakVRFKey freshPk true c w).2.events =
        w.events ++ [Event.ksCreateWeakCall password, Event.keyGenerated freshPk,
          Event.fileWrite fpath (Bytes.record freshPk password true)] := by
  unfold CreateAndExportWeakVRFKey
  rw [hpw]
  simp [ksCreateWeak, hfile, hfresh, WriteToDisk, FS.write, hok]

/-- Witness for C6: concrete weak-key creation to a fresh `weak.json`. -/
theorem createWeak_registry_unchanged_witness :
    (CreateAndExportWeakVRFKey "k0" true ⟨some "pw.txt", some "weak.json", none⟩
        ⟨[Bytes.record "other" (Bytes.raw "x") false],
          ⟨[("pw.txt", Bytes.raw "hunter2")], []⟩, [], [], []⟩).1 = none
    ∧ (CreateAndExportWeakVRFKey "k0" true ⟨some "pw.txt", some "weak.json", none⟩
        ⟨[Bytes.record "other" (Bytes.raw "x") false],
          ⟨[("pw.txt", Bytes.raw "hunter2")], []⟩, [], [], []⟩).2.registry =
        [Bytes.record "other" (Bytes.raw "x") false]
    ∧ (CreateAndExportWeakVRFKey "k0" true ⟨some "pw.txt", some "weak.json", none⟩
        ⟨[Bytes.record "other" (Bytes.raw "x") false],
          ⟨[("pw.txt", Bytes.raw "hunter2")], []⟩, [], [], []⟩).2.fs.files =
        [("weak.json", Bytes.record "k0" (Bytes.raw "hunter2") true),
          ("pw.txt", Bytes.raw "hunter2")] := by
  have h := createWeak_registry_unchanged ⟨some "pw.txt", some "weak.json", none⟩
    ⟨[Bytes.record "other" (Bytes.raw "x") false],
      ⟨[("pw.txt", Bytes.raw "hunter2")], []⟩, [], [], []⟩
    "k0" (Bytes.raw "hunter2") "weak.json" (by rfl) rfl (by rfl) (by decide)
  exact ⟨h.1, h.2.1, h.2.2.1⟩

/-- Claim C7: for each password-consuming lifecycle operation (`CreateVRFKey`,
`CreateAndExportWeakVRFKey`, `ImportVRFKey`): when no password file path is
supplied the operation fails with the must-specify-password error before any
keystore operation is invoked (the whole world, event trace included, is
returned untouched); when a password file is supplied and readable, the
password bytes read from that file are passed to the keystore verbatim (the
unique keystore-call event carries exactly the file's contents) and are not
persisted by this layer (create and import perform no file write; weak
creation's only possible write is the keystore-produced record). -/
theorem password_handling (c : Context) (w : World) (freshPk : String)
    (persistOk genOk : Bool) (hev : w.events = []) :
    (c.password = none →
      CreateVRFKey freshPk persistOk c w =
        (some (GoError.errorf "must specify password file"), w)
      ∧ CreateAndExportWeakVRFKey freshPk genOk c w =
          (some (GoError.errorf "must specify password file"), w)
      ∧ ImportVRFKey c w = (some (GoError.errorf "must specify password file"), w))
    ∧ (∀ ppath pw, c.password = some ppath → w.fs.read ppath = some pw →
        (ksCalls (CreateVRFKey freshPk persistOk c w).2.events =
            [Event.ksCreateKeyCall pw]
          ∧ fileWrites (CreateVRFKey freshPk persistOk c w).2.events = [])
        ∧ (ksCalls (CreateAndExportWeakVRFKey freshPk genOk c w).2.events =
            [Event.ksCreateWeakCall pw]
          ∧ (∀ p d, Event.fileWrite p d ∈
              (CreateAndExportWeakVRFKey freshPk genOk c w).2.events →
                d = Bytes.record freshPk pw true))
        ∧ (∀ kpath kj, c.file = some kpath → w.fs.read kpath = some kj →
            ksCalls (ImportVRFKey c w).2.events = [Event.ksImportCall kj pw]
            ∧ fileWrites (ImportVRFKey c w).2.events = [])) := by
  constructor
  · intro hnone
    refine ⟨?_, ?_, ?_⟩
    · simp [CreateVRFKey, getPassword, hnone]
    · simp [CreateAndExportWeakVRFKey, getPassword, hnone]
    · simp [ImportVRFKey, getPasswordAndKeyFile, getPassword, hnone]
  · intro ppath pw hp hr
    have hpw : getPassword c w.fs = .ok pw := by
      simp [getPassword, passwordFromFile, hp, hr]
    refine ⟨⟨?_, ?_⟩, ⟨?_, ?_⟩, ?_⟩
    · unfold CreateVRFKey
      rw [hpw]
      cases persistOk <;> simp [ksCreateKey, hev, ksCalls]
    · unfold CreateVRFKey
      rw [hpw]
      cases persistOk <;> simp [ksCreateKey, hev, fileWrites]
    · unfold CreateAndExportWeakVRFKey
      rw [hpw]
      cases genOk
      · simp [ksCreateWeak, hev, ksCalls]
      · rcases hc : c.file with _ | f
        · simp [ksCreateWeak, hev, ksCalls]
        · cases hno : noFileToOverwrite f w.fs
          · simp [ksCreateWeak, hev, ksCalls, hno]
          · rcases hwr : w.fs.write f (Bytes.record freshPk pw true) with _ | fs'
            · simp [ksCreateWeak, hev, ksCalls, hno, WriteToDisk, hwr]
            · simp [ksCreateWeak, hev, ksCalls, hno, WriteToDisk, hwr]
    · unfold CreateAndExportWeakVRFKey
      rw [hpw]
      intro p d
      cases genOk
      · simp [ksCreateWeak, hev]
      · rcases hc : c.file with _ | f
        · simp [ksCreateWeak, hev]
        · cases hno : noFileToOverwrite f w.fs
          · simp [ksCreateWeak, hev, hno]
          · rcases hwr : w.fs.write f (Bytes.record freshPk pw true) with _ | fs'
            · simp [ksCreateWeak, hev, hno, WriteToDisk, hwr]
            · simp [ksCreateWeak, hev, hno, WriteToDisk, hwr]
    · intro kpath kj hk hkj
      have hpk : getPasswordAndKeyFile c w.fs = .ok (pw, kj) := by
        simp [getPasswordAndKeyFile, hpw, hk, hkj]
      unfold ImportVRFKey
      rw [hpk]
      dsimp only
      rcases hki : ksImport w.registry kj pw with e | reg
      · cases e <;> cases kj <;>
          simp [hev, ksCalls, fileWrites, unmarshalPublicKeyField]
      · simp [hev, ksCalls, fileWrites]

/-- Witness for C7: a context with no password flag (first part) would not
exercise the hypotheses of the second part, so the witness uses a populated
context: password file `p` holds `pw`, key file `key.json` holds a record. -/
theorem password_handling_witness :
    ksCalls (CreateVRFKey "k1" true ⟨some "p", some "key.json", none⟩
        ⟨[], ⟨[("p", Bytes.raw "pw"),
          ("key.json", Bytes.record hexKey64 (Bytes.raw "pw") false)], []⟩,
          [], [], []⟩).2.events = [Event.ksCreateKeyCall (Bytes.raw "pw")]
    ∧ ksCalls (ImportVRFKey ⟨some "p", some "key.json", none⟩
        ⟨[], ⟨[("p", Bytes.raw "pw"),
          ("key.json", Bytes.record hexKey64 (Bytes.raw "pw") false)], []⟩,
          [], [], []⟩).2.events =
        [Event.ksImportCall (Bytes.record hexKey64 (Bytes.raw "pw") false) (Bytes.raw "pw")]
    ∧ CreateVRFKey "k1" true ⟨none, none, none⟩ ⟨[], ⟨[], []⟩, [], [], []⟩ =
        (some (GoError.errorf "must specify password file"),
          ⟨[], ⟨[], []⟩, [], [], []⟩) := by
  have h := password_handling ⟨some "p", some "key.json", none⟩
    ⟨[], ⟨[("p", Bytes.raw "pw"),
      ("key.json", Bytes.record hexKey64 (Bytes.raw "pw") false)], []⟩,
      [], [], []⟩ "k1" true true rfl
  have h2 := (h.2 "p" (Bytes.raw "pw") rfl (by rfl))
  have hn := password_handling ⟨none, none, none⟩ ⟨[], ⟨[], []⟩, [], [], []⟩
    "k1" true true rfl
  exact ⟨h2.1.1,
    (h2.2.2 "key.json" (Bytes.record hexKey64 (Bytes.raw "pw") false) rfl (by rfl)).1,
    (hn.1 rfl).1⟩

/-- Evaluation of `getKeys` once the public key parses: the keystore export is
invoked; its error report (if any) is logged, never returned — the retrieved
records come back as the `.ok` result. -/
theorem getKeys_run (unreadable : List Bytes) (c : Context) (w : World)
    (s pk : String) (hflag : c.publicKey = some s)
    (hparse : NewPublicKeyFromHex s = some pk) :
    getKeys unreadable c w =
      (.ok (ksExport w.registry pk unreadable).1,
        { w with
          events := w.events ++ [Event.ksExportCall pk],
          log := match (ksExport w.registry pk unreadable).2 with
            | none => w.log
            | some e => w.log ++
                [⟨"while retrieving keys with matching public key", pk, e⟩] }) := by
  unfold getKeys getPublicKey
  simp only [hflag]
  rw [hparse]
  dsimp only
  rcases hx : ksExport w.registry pk unreadable with ⟨enckeys, err⟩
  cases err <;> rfl

/-- Evaluation of `ExportVRFKey` once the public key parses and the target
path is supplied: the write loop runs on the retrieved records over the
initial filesystem. -/
theorem exportVRFKey_run (unreadable : List Bytes) (c : Context) (w : World)
    (s pk keypath : String) (hflag : c.publicKey = some s)
    (hparse : NewPublicKeyFromHex s = some pk)
    (hfile : c.file = some keypath) :
    ExportVRFKey unreadable c w =
      ((writeKeysLoop keypath 0 (ksExport w.registry pk unreadable).1 w.fs).1,
        { w with
          fs := (writeKeysLoop keypath 0 (ksExport w.registry pk unreadable).1 w.fs).2.1,
          events := (w.events ++ [Event.ksExportCall pk]) ++
            (writeKeysLoop keypath 0 (ksExport w.registry pk unreadable).1 w.fs).2.2,
          log := match (ksExport w.registry pk unreadable).2 with
            | none => w.log
            | some e => w.log ++
                [⟨"while retrieving keys with matching public key", pk, e⟩] }) := by
  unfold ExportVRFKey
  rw [getKeys_run unreadable c w s pk hflag hparse]
  dsimp only
  rw [hfile]

/-- Claim C1: the keystore-level export (spec §4.5, modelled) fails with
`NoSuchKeyError` exactly when zero records are found for the public key, and
otherwise returns every retrievable record; the CLI-level lookup (`getKeys`)
tolerates every keystore lookup error: it returns the retrieved records as a
success, logging (not failing on) the reported error. -/
theorem export_no_such_key_and_tolerance (registry : List Bytes)
    (pk s : String) (unreadable : List Bytes) (c : Context) (w : World)
    (hflag : c.publicKey = some s) (hparse : NewPublicKeyFromHex s = some pk) :
    (matchingRecords registry pk = [] →
      ksExport registry pk unreadable = ([], some KsError.NoSuchKeyError))
    ∧ (ksExport registry pk unreadable).1 =
        (matchingRecords registry pk).filter (fun r => !(unreadable.contains r))
    ∧ (getKeys unreadable c w).1 = .ok (ksExport w.registry pk unreadable).1
    ∧ (∀ e, (ksExport w.registry pk unreadable).2 = some e →
        (getKeys unreadable c w).2.log = w.log ++
          [⟨"while retrieving keys with matching public key", pk, e⟩])
    ∧ ((ksExport w.registry pk unreadable).2 = none →
        (getKeys unreadable c w).2.log = w.log) := by
  refine ⟨?_, rfl, ?_, ?_, ?_⟩
  · intro hempty
    simp [ksExport, hempty]
  · rw [getKeys_run unreadable c w s pk hflag hparse]
  · intro e he
    rw [getKeys_run unreadable c w s pk hflag hparse]
    simp [he]
  · intro he
    rw [getKeys_run unreadable c w s pk hflag hparse]
    simp [he]

/-- Witness for C1: a registry holding one readable and one unreadable record
for `hexKey64`; the empty-registry conjunct is exercised on `[]`. -/
theorem export_no_such_key_and_tolerance_witness :
    ksExport [] hexKey64 [] = ([], some KsError.NoSuchKeyError)
    ∧ (getKeys [Bytes.record hexKey64 (Bytes.raw "q") false]
        ⟨none, none, some hexKey64⟩
        ⟨[Bytes.record hexKey64 (Bytes.raw "p") false,
          Bytes.record hexKey64 (Bytes.raw "q") false],
          ⟨[], []⟩, [], [], []⟩).1 =
        .ok [Bytes.record hexKey64 (Bytes.raw "p") false]
    ∧ (getKeys [Bytes.record hexKey64 (Bytes.raw "q") false]
        ⟨none, none, some hexKey64⟩
        ⟨[Bytes.record hexKey64 (Bytes.raw "p") false,
          Bytes.record hexKey64 (Bytes.raw "q") false],
          ⟨[], []⟩, [], [], []⟩).2.log =
        [⟨"while retrieving keys with matching public key", hexKey64,
          KsError.RecordReadError⟩] := by
  have h0 := export_no_such_key_and_tolerance [] hexKey64 hexKey64
    [] ⟨none, none, some hexKey64⟩ ⟨[], ⟨[], []⟩, [], [], []⟩ rfl (by decide)
  have h := export_no_such_key_and_tolerance
    [Bytes.record hexKey64 (Bytes.raw "p") false,
      Bytes.record hexKey64 (Bytes.raw "q") false]
    hexKey64 hexKey64 [Bytes.record hexKey64 (Bytes.raw "q") false]
    ⟨none, none, some hexKey64⟩
    ⟨[Bytes.record hexKey64 (Bytes.raw "p") false,
      Bytes.record hexKey64 (Bytes.raw "q") false],
      ⟨[], []⟩, [], [], []⟩ rfl (by decide)
  refine ⟨h0.1 rfl, ?_, ?_⟩
  · rw [h.2.2.1]
    rfl
  · rw [h.2.2.2.1 KsError.RecordReadError (by rfl)]
    rfl

/-- Claim C3: with N ≥ 1 records returned by the keystore export and a target
path supplied, `ExportVRFKey` succeeds and writes the records to N pairwise
distinct paths — record 0 to the base path, record i > 0 to the base path
with the numeric suffix `.i` — and afterwards every path holds its own
record: no record's ciphertext overwrites another's. -/
theorem export_writes_distinct_paths (c : Context) (w : World)
    (s pk keypath : String) (unreadable : List Bytes)
    (hflag : c.publicKey = some s) (hparse : NewPublicKeyFromHex s = some pk)
    (hfile : c.file = some keypath)
    (_hN : 1 ≤ (ksExport w.registry pk unreadable).1.length)
    (hok : ∀ i, i < (ksExport w.registry pk unreadable).1.length →
      exportPath keypath i ∉ w.fs.writeFails) :
    (ExportVRFKey unreadable c w).1 = none
    ∧ exportPath keypath 0 = keypath
    ∧ (∀ i, 0 < i → exportPath keypath i = keypath ++ "." ++ Nat.repr i)
    ∧ ((List.range (ksExport w.registry pk unreadable).1.length).map
        (exportPath keypath)).Nodup
    ∧ (∀ i (hi : i < (ksExport w.registry pk unreadable).1.length),
        (ExportVRFKey unreadable c w).2.fs.read (exportPath keypath i) =
          some ((ksExport w.registry pk unreadable).1.get ⟨i, hi⟩)) := by
  have hok0 : ∀ k, k < (ksExport w.registry pk unreadable).1.length →
      exportPath keypath (0 + k) ∉ w.fs.writeFails := by
    intro k hk
    rw [Nat.zero_add]
    exact hok k hk
  have hloop := writeKeysLoop_success keypath (ksExport w.registry pk unreadable).1
    0 w.fs hok0
  have hrun := exportVRFKey_run unreadable c w s pk keypath hflag hparse hfile
  refine ⟨?_, exportPath_zero keypath, exportPath_pos keypath,
    exportPaths_nodup keypath _, ?_⟩
  · rw [hrun, hloop]
  · intro i hi
    rw [hrun, hloop]
    have hread := fs_read_exportPairs keypath 0
      (ksExport w.registry pk unreadable).1 w.fs.files w.fs.writeFails i hi
    rwa [Nat.zero_add] at hread

/-- Witness for C3: two records for `hexKey64` exported to `out`: the first
lands at `out`, the second at `out.1`, and both survive on disk. -/
theorem export_writes_distinct_paths_witness :
    (ExportVRFKey [] ⟨none, some "out", some hexKey64⟩
        ⟨[Bytes.record hexKey64 (Bytes.raw "p") false,
          Bytes.record hexKey64 (Bytes.raw "q") false],
          ⟨[], []⟩, [], [], []⟩).1 = none
    ∧ (ExportVRFKey [] ⟨none, some "out", some hexKey64⟩
        ⟨[Bytes.record hexKey64 (Bytes.raw "p") false,
          Bytes.record hexKey64 (Bytes.raw "q") false],
          ⟨[], []⟩, [], [], []⟩).2.fs.read "out" =
        some (Bytes.record hexKey64 (Bytes.raw "p") false)
    ∧ (ExportVRFKey [] ⟨none, some "out", some hexKey64⟩
        ⟨[Bytes.record hexKey64 (Bytes.raw "p") false,
          Bytes.record hexKey64 (Bytes.raw "q") false],
          ⟨[], []⟩, [], [], []⟩).2.fs.read "out.1" =
        some (Bytes.record hexKey64 (Bytes.raw "q") false)
    ∧ "out" ≠ "out.1" := by
  have h := export_writes_distinct_paths ⟨none, some "out", some hexKey64⟩
    ⟨[Bytes.record hexKey64 (Bytes.raw "p") false,
      Bytes.record hexKey64 (Bytes.raw "q") false],
      ⟨[], []⟩, [], [], []⟩
    hexKey64 hexKey64 "out" [] rfl (by decide) rfl (by decide)
    (by intro i hi; simp)
  have h0 := h.2.2.2.2 0 (by decide)
  have h1 := h.2.2.2.2 1 (by decide)
  have hp1 : exportPath "out" 1 = "out.1" := by decide
  rw [hp1] at h1
  exact ⟨h.1, h0, h1, by decide⟩

/-- Claim C10: when the write of the record at index i is the first to fail,
`ExportVRFKey` returns the wrapped write error immediately: the records at
indices 0..i-1 remain written on disk at their paths, and the event trace
contains exactly the file writes of indices below i — no record past i is
written. -/
theorem export_partial_failure (c : Context) (w : World)
    (s pk keypath : String) (unreadable : List Bytes) (i : Nat)
    (hflag : c.publicKey = some s) (hparse : NewPublicKeyFromHex s = some pk)
    (hfile : c.file = some keypath) (hev : w.events = [])
    (hi : i < (ksExport w.registry pk unreadable).1.length)
    (hpre : ∀ k, k < i → exportPath keypath k ∉ w.fs.writeFails)
    (hfail : exportPath keypath i ∈ w.fs.writeFails) :
    (ExportVRFKey unreadable c w).1 =
      some (GoError.wrap (GoError.errorf "write failure")
        ("could not save " ++
          ((ksExport w.registry pk unreadable).1.get ⟨i, hi⟩).render ++
          " to " ++ exportPath keypath i))
    ∧ (∀ k (hk : k < i),
        (ExportVRFKey unreadable c w).2.fs.read (exportPath keypath k) =
          some ((ksExport w.registry pk unreadable).1.get ⟨k, Nat.lt_trans hk hi⟩))
    ∧ (ExportVRFKey unreadable c w).2.events =
        [Event.ksExportCall pk] ++
          (exportPairs keypath 0 ((ksExport w.registry pk unreadable).1.take i)).map
            (fun q => Event.fileWrite q.1 q.2) := by
  have hpre0 : ∀ k, k < i → exportPath keypath (0 + k) ∉ w.fs.writeFails := by
    intro k hk
    rw [Nat.zero_add]
    exact hpre k hk
  have hfail0 : exportPath keypath (0 + i) ∈ w.fs.writeFails := by
    rwa [Nat.zero_add]
  have hloop := writeKeysLoop_fail keypath (ksExport w.registry pk unreadable).1
    0 i w.fs hi hpre0 hfail0
  have hrun := exportVRFKey_run unreadable c w s pk keypath hflag hparse hfile
  refine ⟨?_, ?_, ?_⟩
  · rw [hrun, hloop]
    rw [Nat.zero_add]
  · intro k hk
    rw [hrun, hloop]
    have hk' : k < ((ksExport w.registry pk unreadable).1.take i).length := by
      rw [List.length_take]
      omega
    have hread := fs_read_exportPairs keypath 0
      ((ksExport w.registry pk unreadable).1.take i) w.fs.files w.fs.writeFails k hk'
    rw [Nat.zero_add] at hread
    rw [hread]
    congr 1
    simp [List.get_eq_getElem, List.getElem_take']
  · rw [hrun, hloop]
    simp [hev]

/-- Witness for C10: two records for `hexKey64`, the write of index 1 (path
`out.1`) fails: the error is returned, `out` still holds record 0, and the
trace shows exactly one file write. -/
theorem export_partial_failure_witness :
    (ExportVRFKey [] ⟨none, some "out", some hexKey64⟩
        ⟨[Bytes.record hexKey64 (Bytes.raw "p") false,
          Bytes.record hexKey64 (Bytes.raw "q") false],
          ⟨[], ["out.1"]⟩, [], [], []⟩).1 =
      some (GoError.wrap (GoError.errorf "write failure")
        ("could not save " ++ (Bytes.record hexKey64 (Bytes.raw "q") false).render ++
          " to " ++ exportPath "out" 1))
    ∧ (ExportVRFKey [] ⟨none, some "out", some hexKey64⟩
        ⟨[Bytes.record hexKey64 (Bytes.raw "p") false,
          Bytes.record hexKey64 (Bytes.raw "q") false],
          ⟨[], ["out.1"]⟩, [], [], []⟩).2.fs.read "out" =
        some (Bytes.record hexKey64 (Bytes.raw "p") false)
    ∧ (ExportVRFKey [] ⟨none, some "out", some hexKey64⟩
        ⟨[Bytes.record hexKey64 (Bytes.raw "p") false,
          Bytes.record hexKey64 (Bytes.raw "q") false],
          ⟨[], ["out.1"]⟩, [], [], []⟩).2.events =
        [Event.ksExportCall hexKey64,
          Event.fileWrite "out" (Bytes.record hexKey64 (Bytes.raw "p") false)] := by
  have h := export_partial_failure ⟨none, some "out", some hexKey64⟩
    ⟨[Bytes.record hexKey64 (Bytes.raw "p") false,
      Bytes.record hexKey64 (Bytes.raw "q") false],
      ⟨[], ["out.1"]⟩, [], [], []⟩
    hexKey64 hexKey64 "out" [] 1 rfl (by decide) rfl rfl (by decide)
    (by intro k hk; interval_cases k; decide) (by decide)
  refine ⟨h.1, h.2.1 0 (by decide), ?_⟩
  rw [h.2.2]
  decide
